import Mathlib

/-!
Shallow embedding of the moneybot core: market-state valuation and trade
sizing (src/moneybot/market/state.py), the trade legality filter
(src/moneybot/market_adapters/__init__.py) and the per-cycle orchestration
(src/moneybot/Fund.py).

Modelling conventions: Python floats become rationals, Python dicts with
string keys become association lists, and a Python exception becomes an
Except String result whose message names the exception class.  Python dict
object identity, needed for the frame property of simulate_trades, is
modelled by a small heap (Store) of dict cells addressed by natural numbers.
-/

/-- Python dict with string keys, modelled as an association list whose keys
are unique (Python dict semantics: the binding of a key is unique, update
replaces in place, fresh keys are appended at the end). -/
abbrev Dict (α : Type) : Type := List (String × α)

/-- Dict lookup, d.get(k): the value bound to k, if any. -/
def Dict.lookup {α : Type} : Dict α → String → Option α
  | [], _ => none
  | (k1, v) :: rest, k => if k1 = k then some v else Dict.lookup rest k

/-- Python d[k]: raises KeyError when the key is absent. -/
def Dict.getItem {α : Type} (d : Dict α) (k : String) : Except String α :=
  match Dict.lookup d k with
  | some v => Except.ok v
  | none => Except.error ("KeyError: " ++ k)

/-- Python k in d. -/
def Dict.member {α : Type} (d : Dict α) (k : String) : Bool :=
  (Dict.lookup d k).isSome

/-- Python d[k] = v: replaces the binding of k in place, appends when the key
is fresh. -/
def Dict.set {α : Type} : Dict α → String → α → Dict α
  | [], k, v => [(k, v)]
  | (k1, v1) :: rest, k, v =>
    if k1 = k then (k, v) :: rest else (k1, v1) :: Dict.set rest k v

/-- Python list(d.values()). -/
def Dict.values {α : Type} (d : Dict α) : List α := d.map Prod.snd

/-- A heap of dict cells, modelling Python object identity for balances
maps: a reference is an address, and every live address is below next. -/
structure Store where
  mem : Nat → Dict ℚ
  next : Nat

def Store.read (s : Store) (r : Nat) : Dict ℚ := s.mem r

def Store.write (s : Store) (r : Nat) (d : Dict ℚ) : Store :=
  ⟨fun x => if x = r then d else s.mem x, s.next⟩

/-- Allocate a fresh dict cell holding d; models dict.copy() when d is the
current value of an existing cell. -/
def Store.alloc (s : Store) (d : Dict ℚ) : Nat × Store :=
  (s.next, ⟨fun x => if x = s.next then d else s.mem x, s.next + 1⟩)

/-- Python round(x, 2) rounds to a multiple of 1/100, ties to even
(banker's rounding).  Here: the nearest integer below or equal to x is
num fdiv den (floor division, denominators are positive); twice the
remainder num - floor * den compared against den decides the direction,
a tie going to the even neighbour. -/
def round_half_even (x : ℚ) : ℤ :=
  let f := x.num.fdiv (x.den : ℤ)
  let r2 := 2 * (x.num - f * (x.den : ℤ))
  if r2 < (x.den : ℤ) then f
  else if (x.den : ℤ) < r2 then f + 1
  else if f % 2 = 0 then f else f + 1

def pyRound2 (x : ℚ) : ℚ := (round_half_even (x * 100) : ℚ) / 100

/-- ProposedTrade: the trade object exchanged with strategies.  The class
itself lives outside the embedded core; its shape is dictated by the fields
the core reads and writes.  sell_coin .. ask_amount cover both the sizing
vocabulary of market/state.py and the bid/ask vocabulary of
market_adapters/is_legal. -/
structure ProposedTrade where
  sell_coin : String
  buy_coin : String
  market_name : String
  market_base_currency : String
  fiat : String
  fiat_value_to_trade : ℚ
  fee : ℚ
  market_price : ℚ
  price : ℚ
  sell_amount : ℚ
  buy_amount : ℚ
  from_coin : String
  to_coin : String
  bid_amount : ℚ
  ask_amount : ℚ
deriving DecidableEq

/-- MarketState (market/state.py): chart_data maps a market identifier to a
mapping of statistic name to value; balances maps an asset to the quantity
held.  time is an opaque timestamp. -/
structure MarketState where
  chart_data : Dict (Dict ℚ)
  balances : Dict ℚ
  time : ℕ
  fiat : String
deriving DecidableEq

/-- The chart statistic used throughout state.py. -/
def chart_key : String := "weighted_average"

/-- MarketState.balance: quantity of a coin held; KeyError when absent. -/
def MarketState.balance (self : MarketState) (coin : String) : Except String ℚ :=
  Dict.getItem self.balances coin

/-- MarketState.price: the named statistic of a market; KeyError when the
market or the statistic is absent. -/
def MarketState.price (self : MarketState) (market : String) (key : String) :
    Except String ℚ :=
  match Dict.lookup self.chart_data market with
  | none => Except.error ("KeyError: " ++ market)
  | some stats => Dict.getItem stats key

/-- The warning logged by estimate_value when no market can price the pair. -/
def no_market_warning (reference_coin coin : String) : String :=
  "Could not find a market for " ++ reference_coin ++ ":" ++ coin ++
    "; has it been delisted?"

/-- MarketState.estimate_value: value of amount of coin in terms of
reference_coin.  Returns the value (some) or the unknown sentinel (none,
Python None) together with the warnings logged; errors model Python
exceptions (KeyError on a missing weighted_average statistic,
ZeroDivisionError on a zero price in the inverted market). -/
def MarketState.estimate_value (self : MarketState) (coin : String) (amount : ℚ)
    (reference_coin : String) : Except String (Option ℚ × List String) :=
  if coin = reference_coin then Except.ok (some amount, [])
  else
    match Dict.lookup self.chart_data (reference_coin ++ "_" ++ coin) with
    | some stats =>
      match Dict.getItem stats chart_key with
      | Except.error e => Except.error e
      | Except.ok reference_per_coin => Except.ok (some (amount * reference_per_coin), [])
    | none =>
      match Dict.lookup self.chart_data (coin ++ "_" ++ reference_coin) with
      | some stats =>
        match Dict.getItem stats chart_key with
        | Except.error e => Except.error e
        | Except.ok coin_per_reference =>
          if coin_per_reference = 0 then Except.error "ZeroDivisionError: division by zero"
          else Except.ok (some (amount / coin_per_reference), [])
      | none => Except.ok (none, [no_market_warning reference_coin coin])

/-- The loop of MarketState.estimate_values, building the result dict entry
by entry and substituting 0 for the unknown sentinel. -/
def MarketState.estimate_values_loop (self : MarketState) (reference_coin : String) :
    List (String × ℚ) → Dict ℚ → Except String (Dict ℚ)
  | [], acc => Except.ok acc
  | (coin, amount) :: rest, acc =>
    match self.estimate_value coin amount reference_coin with
    | Except.error e => Except.error e
    | Except.ok (v, _) =>
      MarketState.estimate_values_loop self reference_coin rest
        (Dict.set acc coin (match v with | none => 0 | some x => x))

/-- MarketState.estimate_values: per-coin value of balances in terms of the
reference coin, 0 standing in for the unknown sentinel. -/
def MarketState.estimate_values (self : MarketState) (balances : Dict ℚ)
    (reference_coin : String) : Except String (Dict ℚ) :=
  MarketState.estimate_values_loop self reference_coin balances []

/-- MarketState.estimate_total_value: sum of estimate_values. -/
def MarketState.estimate_total_value (self : MarketState) (balances : Dict ℚ)
    (reference_coin : String) : Except String ℚ :=
  match self.estimate_values balances reference_coin with
  | Except.error e => Except.error e
  | Except.ok m => Except.ok (Dict.values m).sum

/-- MarketState.estimate_total_value_usd: total value in BTC times the
USD_BTC price, rounded to 2 decimal places. -/
def MarketState.estimate_total_value_usd (self : MarketState) (balances : Dict ℚ) :
    Except String ℚ :=
  match self.estimate_total_value balances "BTC" with
  | Except.error e => Except.error e
  | Except.ok btc_val =>
    match self.price "USD_BTC" chart_key with
    | Except.error e => Except.error e
    | Except.ok p => Except.ok (pyRound2 (btc_val * p))

/-- MarketState.estimate_price: stores the chart price on the trade as
market_price, and the direction-adjusted price: its reciprocal when the
trade buys the market base currency, the chart price itself otherwise. -/
def MarketState.estimate_price (self : MarketState) (trade : ProposedTrade) :
    Except String ProposedTrade :=
  match self.price trade.market_name chart_key with
  | Except.error e => Except.error e
  | Except.ok base_price =>
    let t1 := { trade with market_price := base_price }
    if t1.buy_coin = t1.market_base_currency then
      if base_price = 0 then Except.error "ZeroDivisionError: division by zero"
      else Except.ok { t1 with price := 1 / base_price }
    else Except.ok { t1 with price := base_price }

/-- MarketState.set_sell_amount: sizes a trade against the fee-aware
formula.  Selling fiat: sell_amount is fiat_value_to_trade.  Buying fiat:
sell_amount is (balance(sell_coin) * price - fiat_value_to_trade) / price,
clamped at zero.  Neither leg fiat: the source executes a bare raise with no
active exception, which is a RuntimeError.  Finally buy_amount is
(sell_amount - sell_amount * fee) / price. -/
def MarketState.set_sell_amount (self : MarketState) (trade : ProposedTrade) :
    Except String ProposedTrade :=
  match self.estimate_price trade with
  | Except.error e => Except.error e
  | Except.ok t =>
    match
      (if t.sell_coin = t.fiat then
        Except.ok { t with sell_amount := t.fiat_value_to_trade }
      else if t.buy_coin = t.fiat then
        match self.balance t.sell_coin with
        | Except.error e => Except.error e
        | Except.ok bal =>
          let current_value := bal * t.price
          let value_to_sell := current_value - t.fiat_value_to_trade
          if t.price = 0 then Except.error "ZeroDivisionError: division by zero"
          else
            let sa := value_to_sell / t.price
            Except.ok { t with sell_amount := if sa < 0 then 0 else sa }
      else Except.error "RuntimeError: No active exception to re-raise")
    with
    | Except.error e => Except.error e
    | Except.ok t2 =>
      if t2.price = 0 then Except.error "ZeroDivisionError: division by zero"
      else
        Except.ok { t2 with buy_amount := (t2.sell_amount - t2.sell_amount * t2.fee) / t2.price }

/-- One iteration of the inner simulate closure of
MarketState.simulate_trades: size the trade against the snapshot balances
(cell bRef), debit sell_amount from the running copy (cell nbRef) -- a
KeyError when sell_coin is absent there -- initialize the buy_coin balance
to zero when absent, and credit sell_amount / price to it. -/
def simulateOne (chart : Dict (Dict ℚ)) (tm : ℕ) (fiat : String)
    (bRef nbRef : Nat) (st : Store) (proposed : ProposedTrade) :
    Except String Unit × Store :=
  let self : MarketState := ⟨chart, st.read bRef, tm, fiat⟩
  match self.set_sell_amount proposed with
  | Except.error e => (Except.error e, st)
  | Except.ok p =>
    match Dict.lookup (st.read nbRef) p.sell_coin with
    | none => (Except.error ("KeyError: " ++ p.sell_coin), st)
    | some sb =>
      let st1 := st.write nbRef (Dict.set (st.read nbRef) p.sell_coin (sb - p.sell_amount))
      let st2 :=
        if Dict.member (st1.read nbRef) p.buy_coin then st1
        else st1.write nbRef (Dict.set (st1.read nbRef) p.buy_coin 0)
      if p.price = 0 then (Except.error "ZeroDivisionError: division by zero", st2)
      else
        match Dict.lookup (st2.read nbRef) p.buy_coin with
        | none => (Except.error ("KeyError: " ++ p.buy_coin), st2)
        | some bb =>
          (Except.ok (), st2.write nbRef (Dict.set (st2.read nbRef) p.buy_coin
            (bb + p.sell_amount / p.price)))

/-- The for loop of MarketState.simulate_trades over the proposed trades,
threading the store; an exception aborts the loop. -/
def simulate_loop (chart : Dict (Dict ℚ)) (tm : ℕ) (fiat : String)
    (bRef nbRef : Nat) : List ProposedTrade → Store → Except String Unit × Store
  | [], st => (Except.ok (), st)
  | p :: rest, st =>
    match simulateOne chart tm fiat bRef nbRef st p with
    | (Except.error e, st1) => (Except.error e, st1)
    | (Except.ok _, st1) => simulate_loop chart tm fiat bRef nbRef rest st1

/-- MarketState.simulate_trades: the market state is the chart data, the
timestamp, the fiat symbol, and the balances dict living in cell bRef of the
store.  The source first copies self.balances (a fresh cell) and then runs
the loop against that copy, returning it. -/
def simulate_trades (chart : Dict (Dict ℚ)) (tm : ℕ) (fiat : String)
    (st : Store) (bRef : Nat) (proposed_trades : List ProposedTrade) :
    Except String Nat × Store :=
  let a := st.alloc (st.read bRef)
  match simulate_loop chart tm fiat bRef a.1 proposed_trades a.2 with
  | (Except.error e, st2) => (Except.error e, st2)
  | (Except.ok _, st2) => (Except.ok a.1, st2)

/-- MarketAdapter.is_legal (market_adapters/__init__.py): the legality
predicate over a proposed trade.  A falsy (zero/unset) price, negative
bid/ask amounts, a fiat leg under the 0.0001 dust threshold, or an unknown
market each reject the trade with a printed warning.  The oversell branch is
special: its warning print reads the unbound name balances (the method only
has market_state.balances in scope), so reaching it raises a NameError
instead of returning False. -/
def MarketAdapter.is_legal (proposed : ProposedTrade) (market_state : MarketState) :
    Except String Bool :=
  if proposed.price = 0 then Except.ok false
  else
    match Dict.lookup market_state.balances proposed.from_coin with
    | none => Except.error ("KeyError: " ++ proposed.from_coin)
    | some held =>
      if proposed.bid_amount > held then
        Except.error "NameError: name balances is not defined"
      else if proposed.bid_amount < 0 ∨ proposed.ask_amount < 0 then Except.ok false
      else if (proposed.from_coin = proposed.fiat ∧ proposed.bid_amount < 1 / 10000) ∨
          (proposed.to_coin = proposed.fiat ∧ proposed.ask_amount < 1 / 10000) then
        Except.ok false
      else if ¬ (Dict.member market_state.chart_data proposed.market_name = true) then
        Except.ok false
      else Except.ok true

/-- MarketAdapter.filter_legal: the generator over the proposed trades,
fully consumed; trades is_legal accepts survive in order, and an exception
raised by is_legal propagates to the consumer. -/
def MarketAdapter.filter_legal (proposed_trades : List ProposedTrade)
    (market_state : MarketState) : Except String (List ProposedTrade) :=
  match proposed_trades with
  | [] => Except.ok []
  | p :: rest =>
    match MarketAdapter.is_legal p market_state with
    | Except.error e => Except.error e
    | Except.ok b =>
      match MarketAdapter.filter_legal rest market_state with
      | Except.error e => Except.error e
      | Except.ok l => Except.ok (if b then p :: l else l)

/-- The TypeError raised on every cycle by Fund.step, which calls
market_state.estimate_total_value_usd() with no argument (Fund.py line 53)
although the method signature (market/state.py line 143) requires a
balances argument. -/
def estimate_total_value_usd_missing_arg : String :=
  "TypeError: estimate_total_value_usd() missing 1 required positional argument: balances"

/-- Fund.step (Fund.py): one cycle.  The market state for the timestamp and
the trades the strategy proposed are given; execute abstracts the
ExecutionAdapter (out of scope), consuming the filtered trades.  When trades
were proposed they are filtered and executed; finally the source evaluates
market_state.estimate_total_value_usd() with no argument, which raises a
TypeError since the method requires balances. -/
def Fund.step (market_state : MarketState) (proposed_trades : List ProposedTrade)
    (execute : List ProposedTrade → MarketState → Except String Unit) :
    Except String ℚ :=
  match
    (if proposed_trades.isEmpty then Except.ok ()
    else
      match MarketAdapter.filter_legal proposed_trades market_state with
      | Except.error e => Except.error e
      | Except.ok legal => execute legal market_state)
  with
  | Except.error e => Except.error e
  | Except.ok _ => Except.error estimate_total_value_usd_missing_arg

deriving instance DecidableEq for Except

unseal Rat.add Rat.mul Rat.inv Rat.sub

/-! Concrete fixtures used by the claim theorems and witnesses. -/

/-- Snapshot of the end-to-end scenario: one USD_BTC market at 10000,
holding 1 BTC and 0 USD. -/
def msUSD : MarketState :=
  ⟨[("USD_BTC", [(chart_key, 10000)])], [("BTC", 1), ("USD", 0)], 0, "USD"⟩

/-- A sell-to-fiat trade: sell 100 USD of value into BTC at fee 0.0025. -/
def tSellFiat : ProposedTrade :=
  ⟨"USD", "BTC", "USD_BTC", "USD", "USD", 100, 1 / 400, 0, 0, 0, 0, "", "", 0, 0⟩

/-- Snapshot with the USD_BTC market priced at 2 (so the direction-adjusted
price of tSellFiat is 2) and 200 USD held. -/
def msPrice2 : MarketState := ⟨[("USD_BTC", [(chart_key, 2)])], [("USD", 200)], 0, "USD"⟩

/-- The sized trade set_sell_amount produces from tSellFiat on msPrice2:
direction-adjusted price 2, sell_amount 100, buy_amount 49.875. -/
def rSellFiat : ProposedTrade :=
  ⟨"USD", "BTC", "USD_BTC", "USD", "USD", 100, 1 / 400, 2, 2, 100, 399 / 8, "", "", 0, 0⟩

/-- A trade with neither leg fiat: sells ETH for BTC while fiat is USD. -/
def tNoFiat : ProposedTrade :=
  ⟨"ETH", "BTC", "USD_BTC", "USD", "USD", 10, 1 / 400, 0, 0, 0, 0, "", "", 0, 0⟩

/-- A sell-fiat trade with a negative fiat_value_to_trade. -/
def tNegFvt : ProposedTrade :=
  ⟨"USD", "BTC", "USD_BTC", "USD", "USD", -5, 1 / 400, 0, 0, 0, 0, "", "", 0, 0⟩

/-- A buy-fiat trade whose holding value is below fiat_value_to_trade, so the
sell amount gets clamped to zero. -/
def tClamp : ProposedTrade :=
  ⟨"BTC", "USD", "USD_BTC", "USD", "USD", 5, 1 / 400, 0, 0, 0, 0, "", "", 0, 0⟩

/-- The sized trade set_sell_amount produces from tClamp on msUSD: the clamp
fires, sell_amount and buy_amount are zero. -/
def rClamp : ProposedTrade :=
  ⟨"BTC", "USD", "USD_BTC", "USD", "USD", 5, 1 / 400, 10000, 1 / 10000, 0, 0, "", "", 0, 0⟩

/-- Snapshot holding both orientations of the same pair with inconsistent
prices: A_B at 2 and B_A at 3. -/
def msBothMarkets : MarketState :=
  ⟨[("A_B", [(chart_key, 2)]), ("B_A", [(chart_key, 3)])], [], 0, "USD"⟩

/-- Snapshot holding only the market A_B at price 2. -/
def msOneMarket : MarketState := ⟨[("A_B", [(chart_key, 2)])], [], 0, "USD"⟩

/-- Snapshot where XYZ has no market against BTC in either direction. -/
def msDelisted : MarketState :=
  ⟨[("USD_BTC", [(chart_key, 2)])], [("BTC", 3), ("XYZ", 7)], 0, "USD"⟩

/-- An oversized bid in the is_legal vocabulary: bid_amount 2 of BTC while
holding 1, with a truthy price. -/
def tBad : ProposedTrade :=
  ⟨"", "", "USD_BTC", "USD", "USD", 0, 0, 0, 1, 0, 0, "BTC", "USD", 2, 1⟩

/-- An execution adapter stub that fills every trade without effect. -/
def execNoop : List ProposedTrade → MarketState → Except String Unit :=
  fun _ _ => Except.ok ()

/-- A store with a single live cell 0 holding 100 USD. -/
def stOne : Store := ⟨fun r => if r = 0 then [("USD", 100)] else [], 1⟩

/-- A store with cell 0 holding 1 BTC (a balances map) and cell 1 holding
5 USD (a running copy that lacks BTC). -/
def stTwo : Store :=
  ⟨fun r => if r = 0 then [("BTC", 1)] else if r = 1 then [("USD", 5)] else [], 2⟩

/-- The sized trade set_sell_amount produces from tClamp against balances
holding 1 BTC with the USD_BTC market priced 2: direction-adjusted price
1/2, clamped sell_amount 0. -/
def rClampHalf : ProposedTrade :=
  ⟨"BTC", "USD", "USD_BTC", "USD", "USD", 5, 1 / 400, 2, 1 / 2, 0, 0, "", "", 0, 0⟩

/-! Dict and Store lemmas. -/

theorem Dict.lookup_set_self {α : Type} (d : Dict α) (k : String) (v : α) :
    Dict.lookup (Dict.set d k v) k = some v := by
  induction d with
  | nil => simp [Dict.set, Dict.lookup]
  | cons p rest ih =>
    obtain ⟨k1, v1⟩ := p
    by_cases h : k1 = k
    · simp [Dict.set, Dict.lookup, h]
    · simp [Dict.set, Dict.lookup, h, ih]

theorem Dict.lookup_set_other {α : Type} (d : Dict α) (k k2 : String) (v : α)
    (h : k ≠ k2) : Dict.lookup (Dict.set d k v) k2 = Dict.lookup d k2 := by
  induction d with
  | nil => simp [Dict.set, Dict.lookup, h]
  | cons p rest ih =>
    obtain ⟨k1, v1⟩ := p
    by_cases h1 : k1 = k
    · subst h1
      simp [Dict.set, Dict.lookup, h]
    · simp [Dict.set, Dict.lookup, h1, ih]

theorem Store.read_write_self (s : Store) (r : Nat) (d : Dict ℚ) :
    (s.write r d).read r = d := by
  simp [Store.read, Store.write]

theorem Store.read_write_other (s : Store) (r x : Nat) (d : Dict ℚ) (h : x ≠ r) :
    (s.write r d).read x = s.read x := by
  simp [Store.read, Store.write, h]

theorem Store.read_alloc_other (s : Store) (d : Dict ℚ) (x : Nat) (h : x ≠ s.next) :
    (s.alloc d).2.read x = s.read x := by
  simp [Store.read, Store.alloc, h]

theorem Store.read_alloc_self (s : Store) (d : Dict ℚ) :
    (s.alloc d).2.read s.next = d := by
  simp [Store.read, Store.alloc]

/-! Field-preservation lemmas for the sizing functions. -/

theorem estimate_price_fields (ms : MarketState) (t t1 : ProposedTrade)
    (h : ms.estimate_price t = Except.ok t1) :
    t1.sell_coin = t.sell_coin ∧ t1.buy_coin = t.buy_coin ∧ t1.fiat = t.fiat ∧
    t1.fee = t.fee ∧ t1.fiat_value_to_trade = t.fiat_value_to_trade := by
  unfold MarketState.estimate_price at h
  cases hp : ms.price t.market_name chart_key with
  | error e => rw [hp] at h; cases h
  | ok base_price =>
    rw [hp] at h
    dsimp only at h
    split at h
    · split at h
      · cases h
      · injection h with h2
        subst h2
        exact ⟨rfl, rfl, rfl, rfl, rfl⟩
    · injection h with h2
      subst h2
      exact ⟨rfl, rfl, rfl, rfl, rfl⟩

theorem set_sell_amount_fields (ms : MarketState) (t r : ProposedTrade)
    (hr : ms.set_sell_amount t = Except.ok r) :
    r.sell_coin = t.sell_coin ∧ r.buy_coin = t.buy_coin ∧ r.fiat = t.fiat := by
  unfold MarketState.set_sell_amount at hr
  cases hep : ms.estimate_price t with
  | error e => rw [hep] at hr; cases hr
  | ok t1 =>
    rw [hep] at hr
    obtain ⟨hs, hb, hf, _, _⟩ := estimate_price_fields ms t t1 hep
    dsimp only at hr
    split at hr
    · cases hr
    · rename_i t2 heq
      split at hr
      · cases hr
      · injection hr with h2
        subst h2
        split at heq
        · injection heq with h3
          subst h3
          exact ⟨hs, hb, hf⟩
        · split at heq
          · split at heq
            · cases heq
            · split at heq
              · cases heq
              · injection heq with h3
                subst h3
                exact ⟨hs, hb, hf⟩
          · cases heq

/-- C3: for every sell-to-fiat trade (sell_coin equals the trade fiat) that
set_sell_amount accepts, sell_amount is fiat_value_to_trade and buy_amount
is sell_amount * (1 - fee) / price, the fee taken on the sell leg only. -/
theorem set_sell_amount_sell_fiat (ms : MarketState) (t r : ProposedTrade)
    (h : t.sell_coin = t.fiat) (hr : ms.set_sell_amount t = Except.ok r) :
    r.sell_amount = t.fiat_value_to_trade ∧
    r.buy_amount = t.fiat_value_to_trade * (1 - t.fee) / r.price := by
  unfold MarketState.set_sell_amount at hr
  cases hep : ms.estimate_price t with
  | error e => rw [hep] at hr; cases hr
  | ok t1 =>
    rw [hep] at hr
    obtain ⟨hs, _, hf, hfee, hfvt⟩ := estimate_price_fields ms t t1 hep
    have hbr : t1.sell_coin = t1.fiat := by rw [hs, hf]; exact h
    dsimp only at hr
    split at hr
    · cases hr
    · rename_i t2 heq
      split at hr
      · cases hr
      · injection hr with h2
        subst h2
        rw [if_pos hbr] at heq
        injection heq with h3
        subst h3
        refine ⟨hfvt, ?_⟩
        show (t1.fiat_value_to_trade - t1.fiat_value_to_trade * t1.fee) / t1.price
          = t.fiat_value_to_trade * (1 - t.fee) / t1.price
        rw [hfvt, hfee, mul_one_sub]

/-- C3 witness: with fiat_value_to_trade 100, fee 0.0025 and
direction-adjusted price 2, the sized trade has sell_amount 100 and
buy_amount 399/8 = 49.875. -/
theorem set_sell_amount_sell_fiat_witness :
    tSellFiat.sell_coin = tSellFiat.fiat ∧
    msPrice2.set_sell_amount tSellFiat = Except.ok rSellFiat ∧
    rSellFiat.sell_amount = 100 ∧ rSellFiat.buy_amount = 49875 / 1000 ∧
    rSellFiat.sell_amount = tSellFiat.fiat_value_to_trade ∧
    rSellFiat.buy_amount = tSellFiat.fiat_value_to_trade * (1 - tSellFiat.fee) / rSellFiat.price :=
  ⟨by decide, by decide, by decide, by decide,
    set_sell_amount_sell_fiat msPrice2 tSellFiat rSellFiat (by decide) (by decide)⟩

/-- C4 counterexample: set_sell_amount accepts a sell-fiat trade whose
fiat_value_to_trade is -5 and returns sell_amount -5, which is negative, so
the sell amount is not clamped on the sell-fiat branch. -/
theorem set_sell_amount_negative_cex :
    (msPrice2.set_sell_amount tNegFvt).map ProposedTrade.sell_amount = Except.ok (-5) ∧
    ((-5 : ℚ) < 0) := by decide

/-- C4 amended: for every trade with nonnegative fiat_value_to_trade that
set_sell_amount accepts, the resulting sell_amount is nonnegative; the
buy-fiat branch clamps at zero even without that assumption. -/
theorem set_sell_amount_nonneg (ms : MarketState) (t r : ProposedTrade)
    (hfvt : 0 ≤ t.fiat_value_to_trade) (hr : ms.set_sell_amount t = Except.ok r) :
    0 ≤ r.sell_amount := by
  unfold MarketState.set_sell_amount at hr
  cases hep : ms.estimate_price t with
  | error e => rw [hep] at hr; cases hr
  | ok t1 =>
    rw [hep] at hr
    obtain ⟨_, _, _, _, hfvt1⟩ := estimate_price_fields ms t t1 hep
    dsimp only at hr
    split at hr
    · cases hr
    · rename_i t2 heq
      split at hr
      · cases hr
      · injection hr with h2
        subst h2
        split at heq
        · injection heq with h3
          subst h3
          show 0 ≤ t1.fiat_value_to_trade
          rw [hfvt1]
          exact hfvt
        · split at heq
          · split at heq
            · cases heq
            · split at heq
              · cases heq
              · injection heq with h3
                subst h3
                dsimp only
                split
                · exact le_refl 0
                · rename_i hlt
                  exact le_of_not_lt hlt
          · cases heq

/-- C4 amended witness: a buy-fiat trade whose current holding value
1 * (1/10000) is below the requested 5 is clamped to sell_amount 0. -/
theorem set_sell_amount_nonneg_witness :
    (0 : ℚ) ≤ tClamp.fiat_value_to_trade ∧
    msUSD.balance tClamp.sell_coin = Except.ok 1 ∧
    msUSD.set_sell_amount tClamp = Except.ok rClamp ∧
    (0 : ℚ) ≤ rClamp.sell_amount :=
  ⟨by decide, by decide, by decide,
    set_sell_amount_nonneg msUSD tClamp rClamp (by decide) (by decide)⟩

/-- C9: for every trade with neither leg fiat, set_sell_amount raises (a
RuntimeError from the bare raise when estimate_price succeeded, or the
pricing exception itself) and never returns a sized trade. -/
theorem set_sell_amount_no_fiat_leg (ms : MarketState) (t : ProposedTrade)
    (h1 : t.sell_coin ≠ t.fiat) (h2 : t.buy_coin ≠ t.fiat) :
    (ms.set_sell_amount t).isOk = false := by
  unfold MarketState.set_sell_amount
  cases hep : ms.estimate_price t with
  | error e => rfl
  | ok t1 =>
    obtain ⟨hs, hb, hf, _, _⟩ := estimate_price_fields ms t t1 hep
    have hn1 : ¬ t1.sell_coin = t1.fiat := by rw [hs, hf]; exact h1
    have hn2 : ¬ t1.buy_coin = t1.fiat := by rw [hb, hf]; exact h2
    dsimp only
    rw [if_neg hn1, if_neg hn2]
    rfl

/-- C9 witness: the ETH to BTC trade under fiat USD is rejected with an
exception even though its market is priced. -/
theorem set_sell_amount_no_fiat_leg_witness :
    tNoFiat.sell_coin ≠ tNoFiat.fiat ∧ tNoFiat.buy_coin ≠ tNoFiat.fiat ∧
    msPrice2.set_sell_amount tNoFiat
      = Except.error "RuntimeError: No active exception to re-raise" ∧
    (msPrice2.set_sell_amount tNoFiat).isOk = false :=
  ⟨by decide, by decide, by decide,
    set_sell_amount_no_fiat_leg msPrice2 tNoFiat (by decide) (by decide)⟩

/-- C6: estimate_value of a coin in terms of itself returns the amount
unchanged, whatever the chart data holds. -/
theorem estimate_value_identity (ms : MarketState) (coin : String) (amount : ℚ) :
    ms.estimate_value coin amount coin = Except.ok (some amount, []) := by
  unfold MarketState.estimate_value
  rw [if_pos rfl]

/-- C5 counterexample: with A_B priced 2 and B_A priced 3 both present, the
direct market B_A wins the lookup, so estimate_value(A, 1, B) is 1 * 3 = 3
and not 1 / price(A_B) = 1/2. -/
theorem estimate_value_inverse_cex :
    msBothMarkets.price "A_B" chart_key = Except.ok 2 ∧
    msBothMarkets.estimate_value "A" 1 "B" = Except.ok (some 3, []) ∧
    ((3 : ℚ) ≠ 1 / 2) := by decide

/-- C5 amended: when the market A_B is priced at p and A differs from B,
estimate_value(B, x, A) is x * p; and when additionally the opposite market
B_A is absent and p is nonzero, estimate_value(A, x, B) is x / p. -/
theorem estimate_value_inverse_amended (ms : MarketState) (A B : String) (x p : ℚ)
    (hne : A ≠ B)
    (hp : ms.price (A ++ "_" ++ B) chart_key = Except.ok p) :
    ms.estimate_value B x A = Except.ok (some (x * p), []) ∧
    (Dict.lookup ms.chart_data (B ++ "_" ++ A) = none → p ≠ 0 →
      ms.estimate_value A x B = Except.ok (some (x / p), [])) := by
  unfold MarketState.price at hp
  cases hm : Dict.lookup ms.chart_data (A ++ "_" ++ B) with
  | none => rw [hm] at hp; cases hp
  | some stats =>
    rw [hm] at hp
    dsimp only at hp
    constructor
    · unfold MarketState.estimate_value
      rw [if_neg (fun hBA => hne hBA.symm), hm]
      dsimp only
      rw [hp]
    · intro habs hpz
      unfold MarketState.estimate_value
      rw [if_neg hne, habs]
      dsimp only
      rw [hm]
      dsimp only
      rw [hp]
      dsimp only
      rw [if_neg hpz]

/-- C5 amended witness: with only A_B priced at 2, estimate_value(B, 5, A)
is 10 and estimate_value(A, 5, B) is 5/2. -/
theorem estimate_value_inverse_amended_witness :
    ("A" : String) ≠ "B" ∧
    msOneMarket.price "A_B" chart_key = Except.ok 2 ∧
    msOneMarket.estimate_value "B" 5 "A" = Except.ok (some 10, []) ∧
    Dict.lookup msOneMarket.chart_data "B_A" = none ∧ ((2 : ℚ) ≠ 0) ∧
    msOneMarket.estimate_value "A" 5 "B" = Except.ok (some (5 / 2), []) := by
  have T := estimate_value_inverse_amended msOneMarket "A" "B" 5 2 (by decide) (by decide)
  exact ⟨by decide, by decide, T.1, by decide, by decide, T.2 (by decide) (by decide)⟩

theorem estimate_values_loop_append (ms : MarketState) (rc : String)
    (b1 b2 : List (String × ℚ)) (acc : Dict ℚ) :
    MarketState.estimate_values_loop ms rc (b1 ++ b2) acc =
      (match MarketState.estimate_values_loop ms rc b1 acc with
      | Except.error e => Except.error e
      | Except.ok acc1 => MarketState.estimate_values_loop ms rc b2 acc1) := by
  induction b1 generalizing acc with
  | nil => rfl
  | cons p rest ih =>
    obtain ⟨coin, amount⟩ := p
    cases hev : ms.estimate_value coin amount rc with
    | error e =>
      simp only [List.cons_append, MarketState.estimate_values_loop, hev]
    | ok val =>
      obtain ⟨v, w⟩ := val
      simp only [List.cons_append, MarketState.estimate_values_loop, hev]
      exact ih _

theorem estimate_values_loop_lookup_frame (ms : MarketState) (rc coin : String)
    (b2 : List (String × ℚ)) (hnot : Dict.lookup b2 coin = none) :
    ∀ acc m, MarketState.estimate_values_loop ms rc b2 acc = Except.ok m →
      Dict.lookup m coin = Dict.lookup acc coin := by
  induction b2 with
  | nil =>
    intro acc m h
    injection h with h2
    subst h2
    rfl
  | cons p rest ih =>
    obtain ⟨k, v⟩ := p
    have hk : ¬ (k = coin) := by
      intro hkc
      unfold Dict.lookup at hnot
      rw [if_pos hkc] at hnot
      cases hnot
    have hrest : Dict.lookup rest coin = none := by
      unfold Dict.lookup at hnot
      rw [if_neg hk] at hnot
      exact hnot
    intro acc m h
    cases hev : ms.estimate_value k v rc with
    | error e =>
      unfold MarketState.estimate_values_loop at h
      rw [hev] at h
      cases h
    | ok val =>
      obtain ⟨v1, w1⟩ := val
      unfold MarketState.estimate_values_loop at h
      rw [hev] at h
      dsimp only at h
      rw [ih hrest _ m h, Dict.lookup_set_other _ k coin _ hk]

/-- C7: when neither the market rc_coin nor coin_rc exists and coin differs
from the reference coin, estimate_value logs the delisting warning and
returns the unknown sentinel None without raising; estimate_values on any
balances containing that coin (once) substitutes zero for it. -/
theorem estimate_value_missing_market (ms : MarketState) (coin rc : String)
    (amount : ℚ) (b1 b2 : List (String × ℚ)) (m : Dict ℚ)
    (h1 : coin ≠ rc)
    (h2 : Dict.lookup ms.chart_data (rc ++ "_" ++ coin) = none)
    (h3 : Dict.lookup ms.chart_data (coin ++ "_" ++ rc) = none)
    (hnot : Dict.lookup b2 coin = none)
    (hok : ms.estimate_values (b1 ++ (coin, amount) :: b2) rc = Except.ok m) :
    ms.estimate_value coin amount rc = Except.ok (none, [no_market_warning rc coin]) ∧
    Dict.lookup m coin = some 0 := by
  have hev : ms.estimate_value coin amount rc
      = Except.ok (none, [no_market_warning rc coin]) := by
    unfold MarketState.estimate_value
    rw [if_neg h1, h2]
    dsimp only
    rw [h3]
  refine ⟨hev, ?_⟩
  unfold MarketState.estimate_values at hok
  rw [estimate_values_loop_append] at hok
  cases hacc : MarketState.estimate_values_loop ms rc b1 [] with
  | error e => rw [hacc] at hok; cases hok
  | ok acc1 =>
    rw [hacc] at hok
    dsimp only at hok
    unfold MarketState.estimate_values_loop at hok
    rw [hev] at hok
    dsimp only at hok
    rw [estimate_values_loop_lookup_frame ms rc coin b2 hnot _ m hok,
      Dict.lookup_set_self]

/-- C7 witness: XYZ has no market against BTC in msDelisted; its estimated
value is the unknown sentinel with the warning, and estimate_values maps it
to zero. -/
theorem estimate_value_missing_market_witness :
    ("XYZ" : String) ≠ "BTC" ∧
    Dict.lookup msDelisted.chart_data "BTC_XYZ" = none ∧
    Dict.lookup msDelisted.chart_data "XYZ_BTC" = none ∧
    msDelisted.estimate_values [("BTC", 3), ("XYZ", 7)] "BTC"
      = Except.ok [("BTC", 3), ("XYZ", 0)] ∧
    msDelisted.estimate_value "XYZ" 7 "BTC"
      = Except.ok (none, [no_market_warning "BTC" "XYZ"]) ∧
    Dict.lookup [("BTC", (3 : ℚ)), ("XYZ", 0)] "XYZ" = some 0 := by
  have T := estimate_value_missing_market msDelisted "XYZ" "BTC" 7
    [("BTC", 3)] [] [("BTC", 3), ("XYZ", 0)]
    (by decide) (by decide) (by decide) (by decide) (by decide)
  exact ⟨by decide, by decide, by decide, by decide, T.1, T.2⟩

/-- C1: filtering one trade whose bid_amount 2 exceeds the held balance 1
does not yield an empty sequence: the oversell warning print in is_legal
reads the unbound name balances, so consuming the filter_legal generator
raises a NameError instead of skipping the trade. -/
theorem filter_legal_oversell_nameerror :
    Dict.lookup msUSD.balances tBad.from_coin = some 1 ∧
    tBad.bid_amount = 2 ∧ tBad.price ≠ 0 ∧
    MarketAdapter.filter_legal [tBad] msUSD
      = Except.error "NameError: name balances is not defined" := by decide

/-- C2: a cycle never returns the portfolio value: Fund.step calls
estimate_total_value_usd with no argument although the method requires a
balances argument, so the step raises a TypeError; calling the method with
the current balances, as the spec describes, would have returned 10000. -/
theorem fund_step_raises_typeerror :
    Fund.step msUSD [] execNoop = Except.error estimate_total_value_usd_missing_arg ∧
    msUSD.estimate_total_value_usd msUSD.balances = Except.ok 10000 := by decide

theorem simulateOne_frame (chart : Dict (Dict ℚ)) (tm : ℕ) (fiat : String)
    (bRef nbRef : Nat) (st : Store) (p : ProposedTrade) (x : Nat) (hx : x ≠ nbRef) :
    (simulateOne chart tm fiat bRef nbRef st p).2.read x = st.read x := by
  unfold simulateOne
  dsimp only
  repeat' split
  all_goals simp [Store.read, Store.write, hx]

theorem simulate_loop_frame (chart : Dict (Dict ℚ)) (tm : ℕ) (fiat : String)
    (bRef nbRef : Nat) (x : Nat) (hx : x ≠ nbRef) :
    ∀ (ts : List ProposedTrade) (st : Store),
      (simulate_loop chart tm fiat bRef nbRef ts st).2.read x = st.read x := by
  intro ts
  induction ts with
  | nil => intro st; rfl
  | cons p rest ih =>
    intro st
    have h2 := simulateOne_frame chart tm fiat bRef nbRef st p x hx
    unfold simulate_loop
    cases h1 : simulateOne chart tm fiat bRef nbRef st p with
    | mk res st1 =>
      rw [h1] at h2
      cases res with
      | error e => exact h2
      | ok u => exact (ih st1).trans h2

theorem simulate_loop_ok_of_nil (chart : Dict (Dict ℚ)) (tm : ℕ) (fiat : String)
    (bRef nbRef : Nat) (st : Store) :
    simulate_loop chart tm fiat bRef nbRef [] st = (Except.ok (), st) := rfl

/-- C8: simulate_trades never mutates the market state balances cell (the
returned store agrees with the input store at bRef for every trade
sequence), never returns the original balances reference (the result is a
fresh map), and on the empty trade sequence returns a fresh cell whose value
equals the snapshot balances. -/
theorem simulate_trades_pure (chart : Dict (Dict ℚ)) (tm : ℕ) (fiat : String)
    (st : Store) (bRef : Nat) (ts : List ProposedTrade) (h : bRef < st.next) :
    (simulate_trades chart tm fiat st bRef ts).2.read bRef = st.read bRef ∧
    (simulate_trades chart tm fiat st bRef ts).1 ≠ Except.ok bRef ∧
    (ts = [] → (simulate_trades chart tm fiat st bRef ts).1 = Except.ok st.next ∧
      (simulate_trades chart tm fiat st bRef ts).2.read st.next = st.read bRef) := by
  have hne : bRef ≠ st.next := Nat.ne_of_lt h
  have halloc : (st.alloc (st.read bRef)).2.read bRef = st.read bRef :=
    Store.read_alloc_other st (st.read bRef) bRef hne
  have hframe := simulate_loop_frame chart tm fiat bRef st.next bRef hne ts
    (st.alloc (st.read bRef)).2
  unfold simulate_trades
  dsimp only
  rw [show (st.alloc (st.read bRef)).1 = st.next from rfl]
  refine ⟨?_, ?_, ?_⟩
  · cases hloop : simulate_loop chart tm fiat bRef st.next ts (st.alloc (st.read bRef)).2 with
    | mk res st2 =>
      rw [hloop] at hframe
      cases res with
      | error e => exact hframe.trans halloc
      | ok u => exact hframe.trans halloc
  · cases hloop : simulate_loop chart tm fiat bRef st.next ts (st.alloc (st.read bRef)).2 with
    | mk res st2 =>
      cases res with
      | error e =>
        intro hcon
        cases hcon
      | ok u =>
        intro hcon
        injection hcon with h2
        exact hne h2.symm
  · intro hnil
    subst hnil
    exact ⟨rfl, Store.read_alloc_self st (st.read bRef)⟩

/-- C8 witness: simulating one sell-fiat trade against cell 0 of stOne
leaves cell 0 untouched at 100 USD and returns the fresh cell 1. -/
theorem simulate_trades_pure_witness :
    (0 : Nat) < stOne.next ∧
    ((simulate_trades msPrice2.chart_data 0 "USD" stOne 0 [tSellFiat]).2.read 0
        = stOne.read 0 ∧
      (simulate_trades msPrice2.chart_data 0 "USD" stOne 0 [tSellFiat]).1
        ≠ Except.ok 0 ∧
      ([tSellFiat] = ([] : List ProposedTrade) →
        (simulate_trades msPrice2.chart_data 0 "USD" stOne 0 [tSellFiat]).1
          = Except.ok stOne.next ∧
        (simulate_trades msPrice2.chart_data 0 "USD" stOne 0 [tSellFiat]).2.read stOne.next
          = stOne.read 0)) :=
  ⟨by decide, simulate_trades_pure msPrice2.chart_data 0 "USD" stOne 0 [tSellFiat] (by decide)⟩

/-- C10 counterexample: the first trade of the sequence has sell_coin ETH
absent from the running balances map, yet simulate_trades raises a
RuntimeError (from the bare raise on a trade with no fiat leg), not a
KeyError. -/
theorem simulate_trades_no_fiat_leg_cex :
    Dict.lookup (stOne.read 0) tNoFiat.sell_coin = none ∧
    (simulate_trades msPrice2.chart_data 0 "USD" stOne 0 [tNoFiat]).1
      = Except.error "RuntimeError: No active exception to re-raise" ∧
    (simulate_trades msPrice2.chart_data 0 "USD" stOne 0 [tNoFiat]).1
      ≠ Except.error ("KeyError: " ++ tNoFiat.sell_coin) := by decide

/-- C10 amended: when the next trade sizes successfully (set_sell_amount
returns a sized trade) and its sell_coin is absent from the running balances
map (cell nbRef), the simulate loop raises a KeyError naming the sell coin:
only the buy_coin balance is ever initialized, never the sell_coin one. -/
theorem simulate_loop_missing_sell_coin (chart : Dict (Dict ℚ)) (tm : ℕ)
    (fiat : String) (bRef nbRef : Nat) (st : Store) (t r : ProposedTrade)
    (rest : List ProposedTrade)
    (hok : MarketState.set_sell_amount ⟨chart, st.read bRef, tm, fiat⟩ t = Except.ok r)
    (habs : Dict.lookup (st.read nbRef) t.sell_coin = none) :
    (simulate_loop chart tm fiat bRef nbRef (t :: rest) st).1
      = Except.error ("KeyError: " ++ t.sell_coin) := by
  have hsc := (set_sell_amount_fields _ t r hok).1
  unfold simulate_loop simulateOne
  dsimp only
  rw [hok]
  dsimp only
  rw [hsc, habs]

/-- C10 amended witness: a buy-fiat trade that sizes successfully against
the snapshot in cell 0 but whose sell_coin BTC is absent from the running
map in cell 1 raises KeyError: BTC. -/
theorem simulate_loop_missing_sell_coin_witness :
    MarketState.set_sell_amount ⟨msPrice2.chart_data, stTwo.read 0, 0, "USD"⟩ tClamp
      = Except.ok rClampHalf ∧
    Dict.lookup (stTwo.read 1) tClamp.sell_coin = none ∧
    (simulate_loop msPrice2.chart_data 0 "USD" 0 1 [tClamp] stTwo).1
      = Except.error ("KeyError: " ++ tClamp.sell_coin) :=
  ⟨by decide, by decide,
    simulate_loop_missing_sell_coin msPrice2.chart_data 0 "USD" 0 1 stTwo
      tClamp rClampHalf [] (by decide) (by decide)⟩
